import Mathlib

/-!
Verification development for `scripts/top-crashers.py`: a shallow embedding of
the crash-report decoding / sanitizing / regression-comparison / ranking
pipeline, together with theorems about the spec's claims.

Modelling conventions:
* JSON values are modelled by the inductive `JVal`.  JSON numbers are modelled
  as integers (`Int`); the script only ever treats numeric fold results as
  counts and timestamps, and no claim depends on non-integer numerals.
* Python exceptions that can escape the modelled functions are modelled with
  `Except PErr`; `PErr` distinguishes the exception class raised.
* Exact rational arithmetic (`ℚ`) stands in for Python float arithmetic;
  `round(x, 1)` is modelled by round-half-to-even on rationals (`roundTo1`).
* Presentation-only fields of a crash group that depend on the wall clock or
  on calendar formatting (`first_seen`, `last_seen`, `recency`) are not
  carried in the model record; the raw timestamps are.  The type checks the
  script performs while formatting them (which can raise `TypeError`) are
  modelled by `checkTsDisplayable`.
-/

/-- A JSON value, as produced by `json.loads`.  Object fields are kept as an
ordered association list, modelling the insertion order of a Python dict. -/
inductive JVal where
  | null
  | bool (b : Bool)
  | int (n : Int)
  | str (s : String)
  | arr (xs : List JVal)
  | obj (kvs : List (String × JVal))

/-- Python exception classes that can escape the modelled functions. -/
inductive PErr where
  | attributeError
  | typeError
  | valueError
deriving DecidableEq

/-- Python truthiness (`bool(v)`) for the JSON value types. -/
def pyFalsy : JVal → Bool
  | .null => true
  | .bool b => !b
  | .int n => n == 0
  | .str s => s == ""
  | .arr xs => xs.isEmpty
  | .obj kvs => kvs.isEmpty

/-- Python `repr` for JSON values, used by `str` on non-string values.
Quote escaping inside strings is not modelled (no claim depends on it). -/
def pyRepr : JVal → String
  | .null => "None"
  | .bool true => "True"
  | .bool false => "False"
  | .int n => toString n
  | .str s => "'" ++ s ++ "'"
  | .arr xs => "[" ++ joinSep ", " (xs.attach.map (fun x => pyRepr x.1)) ++ "]"
  | .obj kvs => "\x7b" ++ joinSep ", " (kvs.attach.map (fun kv => "'" ++ kv.1.1 ++ "': " ++ pyRepr kv.1.2)) ++ "\x7d"
termination_by v => sizeOf v
decreasing_by
  · have h := List.sizeOf_lt_of_mem x.2
    simp only [JVal.arr.sizeOf_spec]
    omega
  · have h := List.sizeOf_lt_of_mem kv.2
    obtain ⟨⟨a, b⟩, hm⟩ := kv
    simp only [Prod.mk.sizeOf_spec] at h
    simp only [JVal.obj.sizeOf_spec]
    omega
where
  /-- Python `", ".join(parts)`. -/
  joinSep : String → List String → String
    | _, [] => ""
    | _, [s] => s
    | sep, s :: rest => s ++ sep ++ joinSep sep rest

/-- Python `str(v)`. -/
def pyStr : JVal → String
  | .str s => s
  | v => pyRepr v

/-- Dict lookup `d.get(k, default)`, the lookup half: the first binding of `k`, if any. -/
def pyGet (kvs : List (String × JVal)) (k : String) : Option JVal :=
  (kvs.find? (fun kv => kv.1 == k)).map (·.2)

/-- Assignment `d[k] = v` on a dict modelled as an ordered association list: an existing
key keeps its position and gets the new value, a new key is appended. -/
def dictInsert {β : Type} (kvs : List (String × β)) (k : String) (v : β) : List (String × β) :=
  if kvs.any (fun kv => kv.1 == k) then
    kvs.map (fun kv => if kv.1 == k then (kv.1, v) else kv)
  else
    kvs ++ [(k, v)]

/-- Python `int(v)` on a value that may come out of a JSON document:
ints and bools convert, numeric strings parse (`ValueError` otherwise),
everything else raises `TypeError`. -/
def pyToInt : JVal → Except PErr Int
  | .int n => .ok n
  | .bool b => .ok (if b then 1 else 0)
  | .str s =>
      match pyParseInt s with
      | some n => .ok n
      | none => .error .valueError
  | _ => .error .typeError
where
  /-- Conversion `int(s)` for a string: optional surrounding whitespace, an optional
  sign, then decimal digits.  (Python also accepts underscores between
  digits; not modelled, no claim depends on it.) -/
  pyParseInt (s : String) : Option Int :=
    let cs := (s.data.dropWhile pyWs).reverse.dropWhile pyWs |>.reverse
    match cs with
    | '-' :: ds => (digitsVal ds).map (fun n => -(n : Int))
    | '+' :: ds => (digitsVal ds).map (fun n => (n : Int))
    | ds => (digitsVal ds).map (fun n => (n : Int))
  /-- ASCII whitespace, as stripped by `int(str)` and `str.strip()`. -/
  pyWs (c : Char) : Bool :=
    c == ' ' || c == '\t' || c == '\n' || c == '\r' || c == Char.ofNat 11 || c == Char.ofNat 12
  /-- The value of a nonempty all-digit character list. -/
  digitsVal (ds : List Char) : Option Nat :=
    if ds.isEmpty || ds.any (fun c => !c.isDigit) then none
    else some (ds.foldl (fun acc c => acc * 10 + (c.toNat - '0'.toNat)) 0)

/-- A numeric value in an arithmetic context (`sum`, `>=` against a float):
ints and bools are numbers, everything else raises `TypeError`. -/
def pyNum : JVal → Except PErr Int
  | .int n => .ok n
  | .bool b => .ok (if b then 1 else 0)
  | _ => .error .typeError

/-- Python `s.strip()` over the ASCII whitespace set. -/
def pyStrip (s : String) : String :=
  String.mk ((s.data.dropWhile pyToInt.pyWs).reverse.dropWhile pyToInt.pyWs |>.reverse)

/-- Exact rational division, modelling Python's `/` on two integers. -/
def pyDiv (a b : Int) : ℚ := Rat.divInt a b

/-- Rational division used where the numerator is itself a rational
(`histogram[top_val] / total` after the values have been summed). -/
def qDivInt (q : ℚ) (b : Int) : ℚ := Rat.divInt q.num (q.den * b)

/-- Multiplication of a rational by an integer (used for `pct * 100`). -/
def qMulInt (q : ℚ) (n : Int) : ℚ := Rat.divInt (q.num * n) q.den

/-- Round-half-to-even to an integer, modelling Python's `round` on the exact
rational value. -/
def bankersRound (t : ℚ) : Int :=
  let f := t.num.fdiv t.den
  let r2 := 2 * (t.num - f * t.den)
  if r2 < (t.den : Int) then f
  else if (t.den : Int) < r2 then f + 1
  else if f % 2 = 0 then f else f + 1

/-- Python `round(x, 1)`, modelled exactly on rationals with round-half-to-even. -/
def roundTo1 (q : ℚ) : ℚ :=
  Rat.divInt (bankersRound (qMulInt q 10)) 10

/-! ### Constants from the script header -/

/-- Constant `BACKTRACE_ENDPOINT`. -/
def BACKTRACE_ENDPOINT : String := "https://brave.sp.backtrace.io"

/-- Constant `MAX_FRAME_LENGTH`. -/
def MAX_FRAME_LENGTH : Nat := 200

/-! ### PII path redaction (`PII_PATH_PATTERNS` and `re.sub`)

Each pattern is a literal prefix followed by character-class runs; matching is
greedy and deterministic (the classes exclude the following literal), so
`re.sub` is modelled by a left-to-right scan that, at each position, replaces
the maximal match and resumes after it.  `\s` is modelled by the ASCII
whitespace characters. -/

/-- Membership check for `[^\s<sep>]`: not whitespace and not the separator. -/
def classOk (sep : Char) (c : Char) : Bool :=
  !(pyToInt.pyWs c) && c != sep

/-- Match `lit` followed by `[^\s<sep>]+` at the head of `cs`; returns the
number of characters consumed. -/
def matchLitRun (lit : List Char) (sep : Char) (cs : List Char) : Option Nat :=
  if lit.isPrefixOf cs then
    let r := ((cs.drop lit.length).takeWhile (classOk sep)).length
    if r = 0 then none else some (lit.length + r)
  else none

/-- Match `/var/[^\s/]*/[^\s/]+` at the head of `cs`; returns the number of
characters consumed. -/
def matchVarRun (cs : List Char) : Option Nat :=
  let lit := "/var/".data
  if lit.isPrefixOf cs then
    let r0 := ((cs.drop lit.length).takeWhile (classOk '/')).length
    match (cs.drop lit.length).drop r0 with
    | '/' :: rest =>
        let r1 := (rest.takeWhile (classOk '/')).length
        if r1 = 0 then none else some (lit.length + r0 + 1 + r1)
    | _ => none
  else none

/-- One `pattern.sub(token, ·)` pass: scan left to right, replacing each
match by `token` and resuming after it.  Each of the modelled patterns
consumes at least its nonempty literal, so a fuel of `cs.length` steps is
always enough; the fuel-exhausted branch is unreachable. -/
def subPassAux (m : List Char → Option Nat) (token : List Char) : Nat → List Char → List Char
  | _, [] => []
  | 0, cs => cs
  | fl + 1, c :: rest =>
      match m (c :: rest) with
      | some k => token ++ subPassAux m token fl ((c :: rest).drop k)
      | none => c :: subPassAux m token fl rest

/-- One `pattern.sub("<path>", ·)` pass over a character list. -/
def subPass (m : List Char → Option Nat) (cs : List Char) : List Char :=
  subPassAux m "<path>".data cs.length cs

/-- Apply the four `PII_PATH_PATTERNS` substitutions in order:
`/Users/[^\s/]+`, `/home/[^\s/]+`, `C:\Users\[^\s\\]+`, `/var/[^\s/]*/[^\s/]+`. -/
def piiSubAll (cs : List Char) : List Char :=
  subPass matchVarRun
    (subPass (matchLitRun "C:\\Users\\".data '\\')
      (subPass (matchLitRun "/home/".data '/')
        (subPass (matchLitRun "/Users/".data '/') cs)))

/-- Function `sanitize_frame` for a string frame (the decoder only ever passes
strings): redact the PII path patterns, then truncate to `MAX_FRAME_LENGTH`
characters with a `"..."` marker if too long.  (The function's non-string
branch is unreachable from the decoder and is not modelled.) -/
def sanitize_frame (s : String) : String :=
  if MAX_FRAME_LENGTH < (piiSubAll s.data).length then
    String.mk ((piiSubAll s.data).take MAX_FRAME_LENGTH ++ "...".data)
  else String.mk (piiSubAll s.data)

/-! ### Histogram utilities -/

/-- Function `histogram_from_pairs`: convert a list of `[value, count]` pairs into an
insertion-ordered dict; a dict input is returned as-is, any other input gives
an empty dict.  Items that are not lists of length at least two are ignored;
a repeated key keeps its first position and takes the latest value. -/
def histogram_from_pairs : JVal → List (String × JVal)
  | .obj kvs => kvs
  | .arr items =>
      items.foldl
        (fun acc item =>
          match item with
          | .arr (a :: b :: _) => dictInsert acc (pyStr a) b
          | _ => acc)
        []
  | _ => []

/-- Python's `max(iterable, key=f)` over key/value pairs compared by an
integer key value: a left fold that replaces the current best only on a
strictly greater value, hence returning the first maximal element. -/
def pyMaxBy (l : List (String × Int)) : Option (String × Int) :=
  match l with
  | [] => none
  | x :: xs => some (xs.foldl (fun best kv => if kv.2 > best.2 then kv else best) x)

/-- First lookup of a key in a histogram (`histogram[k]`). -/
def histLookup (hist : List (String × JVal)) (k : String) : Option JVal :=
  (hist.find? (fun kv => kv.1 == k)).map (·.2)

/-- Lookup `histogram[k]` read in a numeric context; the `.error` branch is
unreachable when `k` is a key of `hist`. -/
def histKeyVal (hist : List (String × JVal)) (k : String) : Except PErr Int :=
  match histLookup hist k with
  | some v => pyNum v
  | none => .error .typeError

/-- Function `extract_top_bucket`: `(None, 0.0)` for an empty histogram or a zero
total, otherwise the first maximal bucket and its share of the total.
`sum(histogram.values())` raises `TypeError` on a non-numeric count. -/
def extract_top_bucket (hist : List (String × JVal)) : Except PErr (Option String × ℚ) :=
  if hist.isEmpty then .ok (none, 0)
  else do
    let ns ← hist.mapM (fun kv => pyNum kv.2)
    let total := ns.sum
    if total = 0 then .ok (none, 0)
    else do
      let keyed ← hist.mapM (fun kv => do
        let v ← histKeyVal hist kv.1
        pure (kv.1, v))
      match pyMaxBy keyed with
      | some top => do
          let tv ← histKeyVal hist top.1
          .ok (some top.1, pyDiv tv total)
      | none => .error .typeError

/-! ### Callstack parsing -/

/-- Iterating a Python value (`for f in v`): lists yield their elements,
strings their one-character substrings, dicts their keys; other values are
not iterable. -/
def pyIter : JVal → Option (List JVal)
  | .arr xs => some xs
  | .str s => some (s.data.map (fun c => .str (String.mk [c])))
  | .obj kvs => some (kvs.map (fun kv => .str kv.1))
  | _ => none

/-- Helper for `"x\ny".split("\n")`. -/
def splitNlAux : List Char → List Char → List String
  | [], acc => [String.mk acc.reverse]
  | c :: rest, acc =>
      if c = '\n' then String.mk acc.reverse :: splitNlAux rest []
      else splitNlAux rest (c :: acc)

/-- Python `s.split("\n")`: the empty string yields `[""]`. -/
def splitNl (s : String) : List String :=
  splitNlAux s.data []

/-- Function `parse_callstack_json`: a falsy value gives `[]`, a truthy non-string
gives its single stringification, and a string is parsed as JSON (the JSON
parser is an explicit parameter `jl` standing for `json.loads`, `none`
standing for `json.JSONDecodeError`).  A parsed dict with a `"frame"` key
yields the stringified elements of that value; a `TypeError` from iterating a
non-iterable `"frame"` value is caught, falling back — like every other
shape — to newline splitting. -/
def parse_callstack_json (jl : String → Option JVal) (raw : JVal) : List String :=
  if pyFalsy raw then []
  else
    match raw with
    | .str s =>
        match jl s with
        | some p =>
            match p with
            | .obj kvs =>
                match pyGet kvs "frame" with
                | some fv =>
                    match pyIter fv with
                    | some elems => elems.map pyStr
                    | none => splitNl s
                | none => splitNl s
            | .arr l => l.map pyStr
            | _ => splitNl s
        | none => splitNl s
    | v => [pyStr v]

/-! ### The crash-group record -/

/-- The regression badge attached in comparison mode. -/
inductive Badge where
  | NEW
  | RISING
  | STABLE
  | FALLING
deriving DecidableEq

/-- The stored `change_factor`: a rounded ratio or the `float("inf")`
sentinel. -/
inductive CF where
  | q (x : ℚ)
  | inf
deriving DecidableEq

/-- One crash group dict as built by `parse_response`.  The
`first_seen`/`last_seen`/`recency` display strings (presentation-only,
wall-clock dependent) are not carried; the raw timestamps are.  The
comparison fields and `rank` are `none` until `compare_windows` or
`sort_crashers` set them. -/
structure Crasher where
  fingerprint : String
  count : Int
  crashes_per_day : ℚ
  classifier : String
  top_frame : String
  signature : String
  callstack : List String
  platforms : List (String × JVal)
  top_platform : Option String
  platform_pct : ℚ
  versions : List (String × JVal)
  top_version : Option String
  version_pct : ℚ
  first_seen_ts : Option JVal
  last_seen_ts : Option JVal
  is_new : Bool
  triage_url : String
  suggested_title : String
  labels : List String
  rank : Option Nat := none
  regression_badge : Option Badge := none
  change_factor : Option CF := none
  baseline_count : Option Int := none

/-! ### `urllib.parse.quote` -/

/-- Hex digit for a nibble (uppercase, as `quote` produces). -/
def hexDigit (n : Nat) : Char :=
  if n < 10 then Char.ofNat ('0'.toNat + n) else Char.ofNat ('A'.toNat + n - 10)

/-- Bytes kept verbatim by `quote` with the default `safe='/'`: ASCII
letters, digits, `_.-~` and `/`. -/
def quoteSafe (b : Nat) : Bool :=
  (0x41 ≤ b && b ≤ 0x5A) || (0x61 ≤ b && b ≤ 0x7A) || (0x30 ≤ b && b ≤ 0x39) ||
    b == '_'.toNat || b == '.'.toNat || b == '-'.toNat || b == '~'.toNat || b == '/'.toNat

/-- UTF-8 encoding of one code point. -/
def utf8Bytes (n : Nat) : List Nat :=
  if n < 0x80 then [n]
  else if n < 0x800 then [0xC0 + n / 0x40, 0x80 + n % 0x40]
  else if n < 0x10000 then [0xE0 + n / 0x1000, 0x80 + n / 0x40 % 0x40, 0x80 + n % 0x40]
  else [0xF0 + n / 0x40000, 0x80 + n / 0x1000 % 0x40, 0x80 + n / 0x40 % 0x40, 0x80 + n % 0x40]

/-- Python `urllib.parse.quote(s)` (default `safe='/'`): percent-encode every UTF-8
byte outside the safe set. -/
def urlQuote (s : String) : String :=
  String.mk ((s.data.map (fun c => utf8Bytes c.toNat)).flatten.map
      (fun b => if quoteSafe b then [Char.ofNat b] else ['%', hexDigit (b / 16), hexDigit (b % 16)])).flatten

/-! ### `parse_response` -/

/-- Extraction `count = count_data[0] if isinstance(count_data, list) and count_data
else (count_data if isinstance(count_data, (int, float)) else 0)` followed by
`int(count)`.  A Python `bool` is an `int`, so it passes the `isinstance`
check. -/
def extractCount : JVal → Except PErr Int
  | .arr (x :: _) => pyToInt x
  | .int n => .ok n
  | .bool b => .ok (if b then 1 else 0)
  | _ => .ok 0

/-- The type check hidden in `format_timestamp(last_seen_ts)` and
`format_recency(last_seen_ts)`: a truthy non-numeric timestamp raises
`TypeError`.  (For `first_seen_ts` the earlier `is_new` comparison already
enforces this.) -/
def checkTsDisplayable : Option JVal → Except PErr Unit
  | none => .ok ()
  | some v => if pyFalsy v then .ok () else do
      let _ ← pyNum v
      .ok ()

/-- The `is_new` computation: `first_seen_ts is not None and first_seen_ts >=
lookback_start_ts`; the comparison raises `TypeError` on a non-numeric
timestamp. -/
def isNewOf (lb : ℚ) : Option JVal → Except PErr Bool
  | none => .ok false
  | some v => do
      let n ← pyNum v
      .ok (decide (lb ≤ Rat.divInt n 1))

/-- Fallback `top_platform or "unknown"`: Python `or` falls through on a falsy string. -/
def pyOrUnknown : Option String → String
  | some s => if s = "" then "unknown" else s
  | none => "unknown"

/-- ASCII `s.lower()`. -/
def pyLower (s : String) : String :=
  String.mk (s.data.map (fun c => if 'A' ≤ c && c ≤ 'Z' then Char.ofNat (c.toNat + 32) else c))

/-- Python `s.replace(" ", "-")`. -/
def pyDashSpaces (s : String) : String :=
  String.mk (s.data.map (fun c => if c = ' ' then '-' else c))

/-- The body of the `parse_response` loop after the structural checks and the
minimum-count filter: everything from the callstack extraction to the final
crash-group dict.  `jl` models `json.loads`; `days`, `mf` (`max_frames`),
`lb` (`lookback_start_ts`) and `proj` are the loop-invariant arguments. -/
def decodeRest (jl : String → Option JVal) (days : Int) (mf : Nat) (lb : ℚ)
    (proj fingerprint : String) (folds : List JVal) (count : Int) : Except PErr Crasher := do
  let callstack_raw := folds.getD 1 .null
  let cs := match callstack_raw with
    | .arr (x :: _) => x
    | other => other
  let frames0 := parse_callstack_json jl cs
  let frames1 := (frames0.filter (fun f => !(f == "") && !(pyStrip f == ""))).map sanitize_frame
  let frames := frames1.take mf
  let classifier := match folds.getD 2 .null with
    | .arr (x :: _) => pyStr x
    | .str s => s
    | _ => "unknown"
  let tsPair : Option JVal × Option JVal := match folds.getD 3 .null with
    | .arr (a :: b :: _) => (some a, some b)
    | .arr [a] => (some a, some a)
    | _ => (none, none)
  let first_seen_ts := tsPair.1
  let last_seen_ts := tsPair.2
  let version_hist := histogram_from_pairs (folds.getD 4 .null)
  let platform_hist := histogram_from_pairs (folds.getD 5 .null)
  let crashes_per_day := roundTo1 (pyDiv count (max days 1))
  let top_frame := frames.headD "unknown"
  let pb ← extract_top_bucket platform_hist
  let vb ← extract_top_bucket version_hist
  let is_new ← isNewOf lb first_seen_ts
  let _ ← checkTsDisplayable last_seen_ts
  let platform_label := pyOrUnknown pb.1
  let version_label := pyOrUnknown vb.1
  let sig := top_frame ++ " (" ++ classifier ++ ") on " ++ platform_label ++ " " ++ version_label
  let labels := ["crash"]
      ++ (match pb.1 with
          | some p => if p = "" then [] else [pyDashSpaces (pyLower p)]
          | none => [])
      ++ (if is_new then ["regression"] else [])
  .ok {
    fingerprint := fingerprint
    count := count
    crashes_per_day := crashes_per_day
    classifier := classifier
    top_frame := top_frame
    signature := sig
    callstack := frames
    platforms := platform_hist
    top_platform := pb.1
    platform_pct := roundTo1 (qMulInt pb.2 100)
    versions := version_hist
    top_version := vb.1
    version_pct := roundTo1 (qMulInt vb.2 100)
    first_seen_ts := first_seen_ts
    last_seen_ts := last_seen_ts
    is_new := is_new
    triage_url := BACKTRACE_ENDPOINT ++ "/p/" ++ urlQuote proj ++ "/triage?fingerprints=" ++ urlQuote fingerprint
    suggested_title := "Crash: " ++ sig
    labels := labels
  }

/-- The `for entry in values` loop of `parse_response`: entries that are not
lists, have fewer than two elements, or whose fold list is not a list of at
least six folds are skipped (`continue`); entries whose count is below the
minimum-count floor are skipped; the rest are decoded in order. -/
def parseEntries (jl : String → Option JVal) (days : Int) (mf : Nat) (mc : Int) (lb : ℚ)
    (proj : String) : List JVal → Except PErr (List Crasher)
  | [] => .ok []
  | entry :: rest =>
      match entry with
      | .arr es =>
          if es.length < 2 then parseEntries jl days mf mc lb proj rest
          else
            let fingerprint := pyStr (es.getD 0 .null)
            match es.getD 1 .null with
            | .arr folds =>
                if folds.length < 6 then parseEntries jl days mf mc lb proj rest
                else do
                  let count ← extractCount (folds.getD 0 .null)
                  if count < mc then parseEntries jl days mf mc lb proj rest
                  else do
                    let g ← decodeRest jl days mf lb proj fingerprint folds count
                    let gs ← parseEntries jl days mf mc lb proj rest
                    .ok (g :: gs)
            | _ => parseEntries jl days mf mc lb proj rest
      | _ => parseEntries jl days mf mc lb proj rest

/-- Function `parse_response`: pull `response["response"]["values"]` (with `{}` / `[]`
defaults; `.get` on a non-dict raises `AttributeError`), return `[]` for a
falsy `values`, iterate a list; iterating a string or dict yields only
non-list items, all skipped; any other truthy `values` is not iterable. -/
def parse_response (jl : String → Option JVal) (response : JVal) (days : Int)
    (max_frames : Nat) (min_count : Int) (lookback_start_ts : ℚ) (project : String) :
    Except PErr (List Crasher) :=
  match response with
  | .obj kvs =>
      match (pyGet kvs "response").getD (.obj []) with
      | .obj kvs2 =>
          let values := (pyGet kvs2 "values").getD (.arr [])
          if pyFalsy values then .ok []
          else
            match values with
            | .arr l => parseEntries jl days max_frames min_count lookback_start_ts project l
            | .str _ => .ok []
            | .obj _ => .ok []
            | _ => .error .typeError
      | _ => .error .attributeError
  | _ => .error .attributeError

/-! ### Sorting and ranking

CPython's `list.sort` is a stable sort by the decorated key; as a function of
the input list a stable sort is unique, so it is modelled by a stable
insertion sort over the boolean "may come first" relation.  `reverse=True`
(respectively the ascending comparison-mode key) is folded into that
relation; ties keep the original order in both. -/

/-- Insert `x` into `l`, keeping it before the first element it may precede. -/
def insertSorted {α : Type} (le : α → α → Bool) (x : α) : List α → List α
  | [] => [x]
  | y :: ys => if le x y then x :: y :: ys else y :: insertSorted le x ys

/-- Stable sort: equal elements keep their original relative order. -/
def pySort {α : Type} (le : α → α → Bool) : List α → List α
  | [] => []
  | x :: xs => insertSorted le x (pySort le xs)

/-- Ranking `for i, c in enumerate(crashers, start): c["rank"] = i`. -/
def assignRanks (start : Nat) : List Crasher → List Crasher
  | [] => []
  | c :: rest => { c with rank := some start } :: assignRanks (start + 1) rest

/-- The `c.get("last_seen_ts") or 0` sort key, compared as a number.  A
truthy non-numeric timestamp cannot reach this point (the decoder's display
formatting would already have raised), and is keyed as 0. -/
def tsKey : Option JVal → ℚ
  | some (.int n) => Rat.divInt n 1
  | some (.bool true) => 1
  | _ => 0

/-- Function `sort_crashers`: sort descending by the selected key (`reverse=True`,
stable), then assign ranks `1..N`. -/
def sort_crashers (crashers : List Crasher) (order : String) : List Crasher :=
  let sorted :=
    if order = "last-seen" then
      pySort (fun a b => decide (tsKey b.last_seen_ts ≤ tsKey a.last_seen_ts)) crashers
    else if order = "rate" then
      pySort (fun a b => decide (b.crashes_per_day ≤ a.crashes_per_day)) crashers
    else
      pySort (fun a b => decide (b.count ≤ a.count)) crashers
  assignRanks 1 sorted

/-! ### Regression detection (`compare_windows`) -/

/-- Comparison `change_factor > t` on a rounded-or-infinite value (`inf` exceeds every
threshold). -/
def CF.gtQ : CF → ℚ → Bool
  | .q x, t => decide (t < x)
  | .inf, _ => true

/-- Comparison `change_factor < t` (`inf` is below no threshold). -/
def CF.ltQ : CF → ℚ → Bool
  | .q x, t => decide (x < t)
  | .inf, _ => false

/-- Rounding `round(change_factor, 1)`: `round` fixes the infinity sentinel. -/
def cfRound : CF → CF
  | .q x => .q (roundTo1 x)
  | .inf => .inf

/-- Priority `badge_priority.get(c.get("regression_badge", "STABLE"), 99)`: every
annotated record carries a badge; a missing badge defaults to `STABLE`'s
priority. -/
def prioOf (c : Crasher) : Nat :=
  match c.regression_badge with
  | some .NEW => 0
  | some .RISING => 1
  | some .STABLE => 2
  | some .FALLING => 3
  | none => 2

/-- The annotation of one recent crash group against the baseline dict. -/
def annotateOne (baseline_by_fp : List (String × Crasher)) (c : Crasher) : Crasher :=
  match (baseline_by_fp.find? (fun kv => kv.1 == c.fingerprint)).map (·.2) with
  | some base =>
      let base_count := base.count
      let change_factor : CF := if 0 < base_count then .q (pyDiv c.count base_count) else .inf
      if CF.gtQ change_factor 2 then
        { c with regression_badge := some .RISING, change_factor := some (cfRound change_factor),
                 baseline_count := some base_count }
      else if CF.ltQ change_factor (mkRat 1 2) then
        { c with regression_badge := some .FALLING, change_factor := some (cfRound change_factor),
                 baseline_count := some base_count }
      else
        { c with regression_badge := some .STABLE, change_factor := some (cfRound change_factor),
                 baseline_count := some base_count }
  | none =>
      { c with regression_badge := some .NEW, change_factor := some .inf, baseline_count := some 0 }

/-- Function `compare_windows`: annotate every recent group against the baseline
(`{c["fingerprint"]: c for c in baseline}`; a duplicated fingerprint keeps
the last record), sort by `(badge priority, -count)` (stable), and re-rank
`1..N`. -/
def compare_windows (recent baseline : List Crasher) : List Crasher :=
  let baseline_by_fp :=
    baseline.foldl (fun acc c => dictInsert acc c.fingerprint c) ([] : List (String × Crasher))
  let annotated := recent.map (annotateOne baseline_by_fp)
  let sorted := pySort
    (fun a b => decide (prioOf a < prioOf b) || (decide (prioOf a = prioOf b) && decide (b.count ≤ a.count)))
    annotated
  assignRanks 1 sorted

/-! ### The tail of `main` -/

/-- The exit code chosen once the final crash-group list is known: `3` for an
empty result, `0` after printing. -/
def resultExitCode (crashers : List Crasher) : Nat :=
  if crashers.isEmpty then 3 else 0

/-- The comparison-mode data flow of `main`: decode the recent window with
the caller's `--min-count`, decode the baseline window with a literal
minimum-count floor of `0`, compare, and trim to the requested limit. -/
def comparePipeline (jl : String → Option JVal) (recentResp baselineResp : JVal)
    (days : Int) (frames : Nat) (min_count : Int) (limit : Nat)
    (start_ts baseline_start : ℚ) (proj : String) : Except PErr (List Crasher) := do
  let crashers ← parse_response jl recentResp days frames min_count start_ts proj
  let baseline_crashers ← parse_response jl baselineResp days frames 0 baseline_start proj
  .ok ((compare_windows crashers baseline_crashers).take limit)

/-! ### Output formatters

Each formatter is modelled by the per-group record of business values it
emits (the pure text/JSON/CSV layout around those values is presentation
only).  Fields whose display string depends on the wall clock
(`first_seen`, `last_seen`, `recency`) are omitted as in `Crasher`.
`compare_fields` is `none` when `compare_mode` is off (the keys are absent);
when on it carries `(badge default STABLE, change_factor, baseline_count)`
exactly as the formatters read them with `.get`. -/

/-- One entry of the `json` aggregate document. -/
structure JsonEntry where
  rank : Option Nat
  fingerprint : String
  count : Int
  crashes_per_day : ℚ
  classifier : String
  top_frame : String
  signature : String
  callstack : List String
  top_platform : Option String
  platform_pct : ℚ
  platforms : List (String × JVal)
  top_version : Option String
  version_pct : ℚ
  versions : List (String × JVal)
  is_new : Bool
  triage_url : String
  suggested_title : String
  labels : List String
  compare_fields : Option (Badge × Option CF × Option Int)

/-- One line of the `ndjson` output (same fields minus the histograms). -/
structure NdjsonEntry where
  rank : Option Nat
  fingerprint : String
  count : Int
  crashes_per_day : ℚ
  classifier : String
  top_frame : String
  signature : String
  callstack : List String
  top_platform : Option String
  platform_pct : ℚ
  top_version : Option String
  version_pct : ℚ
  is_new : Bool
  triage_url : String
  suggested_title : String
  labels : List String
  compare_fields : Option (Badge × Option CF × Option Int)

/-- One row of the `csv` output (the flat column set). -/
structure CsvRow where
  rank : Option Nat
  fingerprint : String
  count : Int
  crashes_per_day : ℚ
  classifier : String
  top_frame : String
  top_platform : Option String
  platform_pct : ℚ
  top_version : Option String
  version_pct : ℚ
  is_new : Bool
  triage_url : String
  suggested_title : String
  compare_fields : Option (Badge × Option CF × Option Int)

/-- One `### #rank — title` section of the markdown report. -/
structure MarkdownSection where
  rank : Option Nat
  suggested_title : String
  badge_note : Option String
  fingerprint : String
  count : Int
  crashes_per_day : ℚ
  classifier : String
  top_platform : Option (String × ℚ)
  top_version : Option (String × ℚ)
  baseline_count : Option Int
  change_factor_shown : Option CF
  triage_url : String
  callstack : List String
  labels : List String

/-- Function `format_json_output`, restricted to the per-group business values. -/
def format_json_entries (crashers : List Crasher) (compare_mode : Bool) : List JsonEntry :=
  crashers.map (fun c =>
    { rank := c.rank, fingerprint := c.fingerprint, count := c.count,
      crashes_per_day := c.crashes_per_day, classifier := c.classifier,
      top_frame := c.top_frame, signature := c.signature, callstack := c.callstack,
      top_platform := c.top_platform, platform_pct := c.platform_pct,
      platforms := c.platforms, top_version := c.top_version,
      version_pct := c.version_pct, versions := c.versions, is_new := c.is_new,
      triage_url := c.triage_url, suggested_title := c.suggested_title,
      labels := c.labels,
      compare_fields := if compare_mode then
          some (c.regression_badge.getD .STABLE, c.change_factor, c.baseline_count)
        else none })

/-- Function `format_ndjson`, restricted to the per-group business values. -/
def format_ndjson_entries (crashers : List Crasher) (compare_mode : Bool) : List NdjsonEntry :=
  crashers.map (fun c =>
    { rank := c.rank, fingerprint := c.fingerprint, count := c.count,
      crashes_per_day := c.crashes_per_day, classifier := c.classifier,
      top_frame := c.top_frame, signature := c.signature, callstack := c.callstack,
      top_platform := c.top_platform, platform_pct := c.platform_pct,
      top_version := c.top_version, version_pct := c.version_pct, is_new := c.is_new,
      triage_url := c.triage_url, suggested_title := c.suggested_title,
      labels := c.labels,
      compare_fields := if compare_mode then
          some (c.regression_badge.getD .STABLE, c.change_factor, c.baseline_count)
        else none })

/-- Function `format_csv_output`, restricted to the per-group business values. -/
def format_csv_rows (crashers : List Crasher) (compare_mode : Bool) : List CsvRow :=
  crashers.map (fun c =>
    { rank := c.rank, fingerprint := c.fingerprint, count := c.count,
      crashes_per_day := c.crashes_per_day, classifier := c.classifier,
      top_frame := c.top_frame, top_platform := c.top_platform,
      platform_pct := c.platform_pct, top_version := c.top_version,
      version_pct := c.version_pct, is_new := c.is_new, triage_url := c.triage_url,
      suggested_title := c.suggested_title,
      compare_fields := if compare_mode then
          some (c.regression_badge.getD .STABLE, c.change_factor, c.baseline_count)
        else none })

/-- Function `format_markdown`, restricted to the per-group business values: the badge
note in the heading, the key/value table (platform/version rows only when
truthy, baseline/change rows only in compare mode, the change factor hidden
at the infinity sentinel), the fenced callstack and the labels line. -/
def format_markdown_sections (crashers : List Crasher) (compare_mode : Bool) : List MarkdownSection :=
  crashers.map (fun c =>
    { rank := c.rank, suggested_title := c.suggested_title,
      badge_note :=
        (match compare_mode, c.regression_badge with
         | true, some b => some (match b with
             | .NEW => "NEW" | .RISING => "RISING" | .STABLE => "STABLE" | .FALLING => "FALLING")
         | _, _ => if c.is_new then some "NEW" else none),
      fingerprint := c.fingerprint, count := c.count,
      crashes_per_day := c.crashes_per_day, classifier := c.classifier,
      top_platform := (match c.top_platform with
        | some p => if p = "" then none else some (p, c.platform_pct)
        | none => none),
      top_version := (match c.top_version with
        | some v => if v = "" then none else some (v, c.version_pct)
        | none => none),
      baseline_count := if compare_mode then c.baseline_count else none,
      change_factor_shown :=
        (if compare_mode && c.baseline_count.isSome && c.change_factor != some .inf then
          c.change_factor
        else none),
      triage_url := c.triage_url, callstack := c.callstack, labels := c.labels })

/-! ### Helper lemmas -/

theorem insertSorted_perm {α : Type} (le : α → α → Bool) (x : α) (l : List α) :
    (insertSorted le x l).Perm (x :: l) := by
  induction l with
  | nil => simp [insertSorted]
  | cons y ys ih =>
      simp only [insertSorted]
      split
      · exact List.Perm.refl _
      · exact ((ih.cons y).trans (List.Perm.swap x y ys)).symm.symm

theorem pySort_perm {α : Type} (le : α → α → Bool) (l : List α) :
    (pySort le l).Perm l := by
  induction l with
  | nil => simp [pySort]
  | cons x xs ih =>
      exact (insertSorted_perm le x (pySort le xs)).trans (ih.cons x)

theorem length_pySort {α : Type} (le : α → α → Bool) (l : List α) :
    (pySort le l).length = l.length :=
  (pySort_perm le l).length_eq

theorem assignRanks_map {γ : Type} (f : Crasher → γ)
    (hf : ∀ c i, f { c with rank := some i } = f c) :
    ∀ (i : Nat) (l : List Crasher), (assignRanks i l).map f = l.map f := by
  intro i l
  induction l generalizing i with
  | nil => rfl
  | cons c rest ih => simp [assignRanks, hf, ih]

theorem length_assignRanks : ∀ (i : Nat) (l : List Crasher),
    (assignRanks i l).length = l.length := by
  intro i l
  induction l generalizing i with
  | nil => rfl
  | cons c rest ih => simp [assignRanks, ih]

theorem map_rank_assignRanks : ∀ (i : Nat) (l : List Crasher),
    (assignRanks i l).map (fun c => c.rank) = (List.range' i l.length).map some := by
  intro i l
  induction l generalizing i with
  | nil => rfl
  | cons c rest ih => simp [assignRanks, List.range'_succ, ih]

theorem take_range' : ∀ (m n s : Nat), (List.range' s n).take m = List.range' s (min m n) := by
  intro m
  induction m with
  | zero => simp
  | succ m ih =>
      intro n s
      cases n with
      | zero => simp
      | succ n => simp [List.range'_succ, ih, Nat.succ_min_succ]

/-! ### Spec-side definitions for the comparison claims -/

/-- The baseline dict `{c["fingerprint"]: c for c in baseline}`. -/
def baselineDict (baseline : List Crasher) : List (String × Crasher) :=
  baseline.foldl (fun acc c => dictInsert acc c.fingerprint c) []

/-- Lookup `baseline_by_fp[fp]`, or `none` when `fp not in baseline_by_fp`. -/
def lookupBaseline (baseline : List Crasher) (fp : String) : Option Crasher :=
  ((baselineDict baseline).find? (fun kv => kv.1 == fp)).map (·.2)

/-- Whether a recent fingerprint is joined (`fp in baseline_by_fp`). -/
def isFoundInBaseline (baseline : List Crasher) (fp : String) : Bool :=
  (lookupBaseline baseline fp).isSome

/-- The exact (unrounded) change ratio the analyzer classifies with. -/
def cfExact (baseline : List Crasher) (fp : String) (rcount : Int) : CF :=
  match lookupBaseline baseline fp with
  | none => .inf
  | some base => if 0 < base.count then .q (pyDiv rcount base.count) else .inf

/-- The badge as a pure function of baseline membership and the exact
ratio. -/
def badgeFromMembership (found : Bool) (cf : CF) : Badge :=
  if found then
    (if CF.gtQ cf 2 then .RISING else if CF.ltQ cf (mkRat 1 2) then .FALLING else .STABLE)
  else .NEW

/-- The comparison-relevant view of a crash group: everything the
comparison claims read, and everything `compare_windows` writes except
`rank`. -/
def cmpView (c : Crasher) : String × Int × Option Badge × Option CF × Option Int :=
  (c.fingerprint, c.count, c.regression_badge, c.change_factor, c.baseline_count)

theorem cmpView_compare_windows (r b : List Crasher) :
    ((compare_windows r b).map cmpView).Perm
      (r.map (fun c => cmpView (annotateOne (baselineDict b) c))) := by
  unfold compare_windows
  rw [assignRanks_map cmpView (fun c i => rfl)]
  exact ((pySort_perm _ _).map cmpView).trans (by rw [List.map_map]; exact List.Perm.refl _)

theorem mem_compare_windows_view {r b : List Crasher} {c : Crasher}
    (h : c ∈ compare_windows r b) :
    ∃ c1 ∈ r, cmpView c = cmpView (annotateOne (baselineDict b) c1) := by
  have h2 : cmpView c ∈ (compare_windows r b).map cmpView := List.mem_map_of_mem cmpView h
  have h3 := (cmpView_compare_windows r b).mem_iff.mp h2
  obtain ⟨c1, hc1, he⟩ := List.mem_map.mp h3
  exact ⟨c1, hc1, he.symm⟩

theorem annotateOne_badge_eq (b : List Crasher) (c : Crasher) :
    (annotateOne (baselineDict b) c).regression_badge =
      some (badgeFromMembership (isFoundInBaseline b c.fingerprint)
        (cfExact b c.fingerprint c.count)) := by
  unfold annotateOne badgeFromMembership isFoundInBaseline cfExact lookupBaseline
  cases hfind : (List.find? (fun kv => kv.1 == c.fingerprint) (baselineDict b)).map (·.2) with
  | none => simp
  | some base =>
      simp only [Option.isSome_some, if_pos rfl]
      by_cases hb : 0 < base.count
      · simp only [if_pos hb]
        by_cases hgt : CF.gtQ (.q (pyDiv c.count base.count)) 2
        · simp [hgt]
        · by_cases hlt : CF.ltQ (.q (pyDiv c.count base.count)) (mkRat 1 2)
          · simp [hgt, hlt]
          · simp [hgt, hlt]
      · simp [if_neg hb, CF.gtQ]

/-- What claim C4 (as amended) asserts of one analyzer output record. -/
def C4Spec (b : List Crasher) (c : Crasher) : Prop :=
  match lookupBaseline b c.fingerprint with
  | none =>
      c.regression_badge = some .NEW ∧ c.baseline_count = some 0 ∧ c.change_factor = some .inf
  | some base =>
      c.baseline_count = some base.count ∧
      (0 < base.count →
        c.change_factor = some (.q (roundTo1 (pyDiv c.count base.count))) ∧
        c.regression_badge = some
          (if 2 < pyDiv c.count base.count then .RISING
           else if pyDiv c.count base.count < mkRat 1 2 then .FALLING
           else .STABLE) ∧
        (pyDiv c.count base.count = 2 → c.regression_badge = some .STABLE) ∧
        (pyDiv c.count base.count = mkRat 1 2 → c.regression_badge = some .STABLE)) ∧
      (¬ 0 < base.count →
        c.change_factor = some .inf ∧ c.regression_badge = some .RISING)

theorem annotateOne_fields (d : List (String × Crasher)) (c : Crasher) :
    (annotateOne d c).fingerprint = c.fingerprint ∧ (annotateOne d c).count = c.count := by
  unfold annotateOne
  cases (List.find? (fun kv => kv.1 == c.fingerprint) d).map (·.2) with
  | none => exact ⟨rfl, rfl⟩
  | some base =>
      simp only []
      split <;> (try split) <;> (try split) <;> exact ⟨rfl, rfl⟩

theorem annotateOne_C4Spec (b : List Crasher) (c : Crasher) :
    C4Spec b (annotateOne (baselineDict b) c) := by
  obtain ⟨hfp, hcount⟩ := annotateOne_fields (baselineDict b) c
  unfold C4Spec
  rw [hfp, hcount]
  unfold annotateOne lookupBaseline
  cases hfind : (List.find? (fun kv => kv.1 == c.fingerprint) (baselineDict b)).map (·.2) with
  | none => simp
  | some base =>
      simp only []
      by_cases hb : 0 < base.count
      · simp only [if_pos hb]
        by_cases hgt : (2 : ℚ) < pyDiv c.count base.count
        · rw [if_pos (by simpa [CF.gtQ] using hgt)]
          refine ⟨rfl, fun _ => ⟨rfl, ?_, fun hq => ?_, fun hq => ?_⟩, fun hn => absurd hb hn⟩
          · simp [if_pos hgt, cfRound]
          · rw [hq] at hgt
            exact absurd hgt (by decide)
          · rw [hq] at hgt
            exact absurd hgt (by decide)
        · rw [if_neg (by simpa [CF.gtQ] using hgt)]
          by_cases hlt : pyDiv c.count base.count < mkRat 1 2
          · rw [if_pos (by simpa [CF.ltQ] using hlt)]
            refine ⟨rfl, fun _ => ⟨rfl, ?_, fun hq => ?_, fun hq => ?_⟩, fun hn => absurd hb hn⟩
            · simp [if_neg hgt, if_pos hlt, cfRound]
            · rw [hq] at hlt
              exact absurd hlt (by decide)
            · rw [hq] at hlt
              exact absurd hlt (by decide)
          · rw [if_neg (by simpa [CF.ltQ] using hlt)]
            refine ⟨rfl, fun _ => ⟨rfl, ?_, fun _ => ?_, fun _ => ?_⟩, fun hn => absurd hb hn⟩
            · simp [if_neg hgt, if_neg hlt, cfRound]
            · rfl
            · rfl
      · simp only [if_neg hb]
        rw [if_pos (show CF.gtQ .inf 2 = true from rfl)]
        exact ⟨rfl, fun h => absurd h hb, fun _ => ⟨rfl, rfl⟩⟩

/-! ### Spec-side definitions and lemmas for the histogram claims -/

/-- A histogram with integer counts, as a `JVal` dict. -/
def histOfInts (pairs : List (String × Int)) : List (String × JVal) :=
  pairs.map (fun p => (p.1, .int p.2))

/-- The maximum count of a pair list (0 when empty). -/
def maxSnd : List (String × Int) → Int
  | [] => 0
  | x :: xs => xs.foldl (fun m kv => max m kv.2) x.2

/-- The sum of the counts of a pair list. -/
def sumSnd (pairs : List (String × Int)) : Int :=
  (pairs.map Prod.snd).sum

/-- The bucket of the first-occurring maximal pair (the claim's words). -/
def firstMaxPairBucket (pairs : List (String × Int)) : Option String :=
  (pairs.find? (fun kv => kv.2 == maxSnd pairs)).map (·.1)

/-- The integer under a `JVal.int`, with a default for the other shapes. -/
def jIntVal : JVal → Int
  | .int n => n
  | _ => 0

theorem le_foldl_max : ∀ (xs : List (String × Int)) (m : Int),
    m ≤ xs.foldl (fun m kv => max m kv.2) m := by
  intro xs
  induction xs with
  | nil => exact fun m => le_refl m
  | cons y ys ih =>
      intro m
      exact le_trans (le_max_left m y.2) (ih (max m y.2))

theorem foldl_pick_snd : ∀ (xs : List (String × Int)) (x : String × Int),
    (xs.foldl (fun best kv => if kv.2 > best.2 then kv else best) x).2 =
      xs.foldl (fun m kv => max m kv.2) x.2 := by
  intro xs
  induction xs with
  | nil => exact fun x => rfl
  | cons y ys ih =>
      intro x
      show (ys.foldl _ (if y.2 > x.2 then y else x)).2 = ys.foldl _ (max x.2 y.2)
      rw [ih]
      congr 1
      by_cases hxy : x.2 < y.2
      · rw [if_pos hxy, max_eq_right (le_of_lt hxy)]
      · rw [if_neg hxy, max_eq_left (le_of_not_lt hxy)]

theorem foldl_pick_first : ∀ (xs : List (String × Int)) (x : String × Int),
    (x :: xs).find?
        (fun kv => kv.2 == (xs.foldl (fun best kv => if kv.2 > best.2 then kv else best) x).2) =
      some (xs.foldl (fun best kv => if kv.2 > best.2 then kv else best) x) := by
  intro xs
  induction xs with
  | nil =>
      intro x
      simp [List.find?]
  | cons y ys ih =>
      intro x
      have estep : ((y :: ys).foldl (fun best kv => if kv.2 > best.2 then kv else best) x) =
          ys.foldl (fun best kv => if kv.2 > best.2 then kv else best) (if y.2 > x.2 then y else x) := rfl
      rw [estep]
      have hseed : (if y.2 > x.2 then y else x).2 ≤
          (ys.foldl (fun best kv => if kv.2 > best.2 then kv else best) (if y.2 > x.2 then y else x)).2 := by
        rw [foldl_pick_snd]
        exact le_foldl_max ys _
      by_cases hxy : x.2 < y.2
      · have hf : (if y.2 > x.2 then y else x) = y := if_pos hxy
        rw [hf] at hseed ⊢
        have hx2 : x.2 < (ys.foldl (fun best kv => if kv.2 > best.2 then kv else best) y).2 :=
          lt_of_lt_of_le hxy hseed
        have hxne : (x.2 == (ys.foldl (fun best kv => if kv.2 > best.2 then kv else best) y).2) = false := by
          simp [ne_of_lt hx2]
        rw [List.find?_cons, hxne]
        exact ih y
      · have hf : (if y.2 > x.2 then y else x) = x := if_neg hxy
        rw [hf] at hseed ⊢
        have hy2 : y.2 ≤ x.2 := le_of_not_lt hxy
        have ihx := ih x
        by_cases hxm : x.2 = (ys.foldl (fun best kv => if kv.2 > best.2 then kv else best) x).2
        · have htrue : (x.2 == (ys.foldl (fun best kv => if kv.2 > best.2 then kv else best) x).2) = true := by
            simp [hxm]
          rw [List.find?_cons, htrue] at ihx
          rw [List.find?_cons, htrue]
          exact ihx
        · have hxf : (x.2 == (ys.foldl (fun best kv => if kv.2 > best.2 then kv else best) x).2) = false := by
            simp [hxm]
          have hx2 : x.2 < (ys.foldl (fun best kv => if kv.2 > best.2 then kv else best) x).2 :=
            lt_of_le_of_ne hseed hxm
          have hyf : (y.2 == (ys.foldl (fun best kv => if kv.2 > best.2 then kv else best) x).2) = false := by
            simp [ne_of_lt (lt_of_le_of_lt hy2 hx2)]
          rw [List.find?_cons, hxf] at ihx
          rw [List.find?_cons, hxf, List.find?_cons, hyf]
          exact ihx

theorem pyMaxBy_spec (pairs : List (String × Int)) (hne : pairs ≠ []) :
    ∃ top, pyMaxBy pairs = some top ∧ top.2 = maxSnd pairs ∧
      pairs.find? (fun kv => kv.2 == maxSnd pairs) = some top ∧ top ∈ pairs := by
  cases pairs with
  | nil => exact absurd rfl hne
  | cons x xs =>
      refine ⟨xs.foldl (fun (best kv : String × Int) => if kv.2 > best.2 then kv else best) x, rfl, ?_, ?_, ?_⟩
      · exact foldl_pick_snd xs x
      · have h := foldl_pick_first xs x
        rw [show maxSnd (x :: xs) =
            (xs.foldl (fun best kv => if kv.2 > best.2 then kv else best) x).2 from
          (foldl_pick_snd xs x).symm]
        exact h
      · have h := foldl_pick_first xs x
        exact List.mem_of_find?_eq_some h

theorem exbind_ok {α β : Type} (a : α) (f : α → Except PErr β) :
    (Except.ok a >>= f) = f a := rfl

theorem mapM_ok_of_forall {α β : Type} (f : α → Except PErr β) (g : α → β) :
    ∀ (l : List α), (∀ a ∈ l, f a = .ok (g a)) → l.mapM f = .ok (l.map g) := by
  intro l
  induction l with
  | nil => intro _; rfl
  | cons a rest ih =>
      intro h
      rw [List.mapM_cons, h a (List.mem_cons_self a rest), exbind_ok,
        ih (fun b hb => h b (List.mem_cons_of_mem a hb)), exbind_ok]
      rfl

theorem histLookup_histOfInts : ∀ (pairs : List (String × Int)) (k : String) (v : Int),
    (pairs.map Prod.fst).Nodup → (k, v) ∈ pairs →
    histLookup (histOfInts pairs) k = some (.int v) := by
  intro pairs
  induction pairs with
  | nil => intro k v _ hm; exact absurd hm (List.not_mem_nil _)
  | cons p ps ih =>
      intro k v hnd hm
      rw [List.map_cons, List.nodup_cons] at hnd
      rcases List.mem_cons.mp hm with heq | hm2
      · have hk : p.1 = k := by rw [← heq]
        have hv : p.2 = v := by rw [← heq]
        subst hk
        subst hv
        simp [histLookup, histOfInts, List.find?]
      · have hk : p.1 ≠ k := by
          intro hcontra
          exact hnd.1 (hcontra ▸ List.mem_map_of_mem Prod.fst hm2)
        have hbe : ((p.1 : String) == k) = false := beq_eq_false_iff_ne.mpr hk
        show histLookup ((p.1, JVal.int p.2) :: histOfInts ps) k = some (.int v)
        rw [histLookup, List.find?_cons]
        simp only [hbe]
        exact ih k v hnd.2 hm2

theorem histKeyVal_histOfInts (pairs : List (String × Int)) (k : String) (v : Int)
    (hnd : (pairs.map Prod.fst).Nodup) (hm : (k, v) ∈ pairs) :
    histKeyVal (histOfInts pairs) k = .ok v := by
  rw [histKeyVal, histLookup_histOfInts pairs k v hnd hm]
  rfl

theorem extract_top_bucket_ints (pairs : List (String × Int))
    (hnd : (pairs.map Prod.fst).Nodup) (hs : sumSnd pairs ≠ 0) :
    extract_top_bucket (histOfInts pairs) =
      .ok (firstMaxPairBucket pairs, pyDiv (maxSnd pairs) (sumSnd pairs)) ∧
    (firstMaxPairBucket pairs).isSome = true := by
  have hne : pairs ≠ [] := by
    intro h
    rw [h] at hs
    exact hs rfl
  obtain ⟨top, hmax, htop2, hfind, hmem⟩ := pyMaxBy_spec pairs hne
  have hfmb : firstMaxPairBucket pairs = some top.1 := by
    rw [firstMaxPairBucket, hfind]
    rfl
  have hempty : (histOfInts pairs).isEmpty = false := by
    cases pairs with
    | nil => exact absurd rfl hne
    | cons p ps => rfl
  have hB : (histOfInts pairs).mapM (fun kv => pyNum kv.2) = .ok (pairs.map Prod.snd) := by
    have h1 := mapM_ok_of_forall (fun kv => pyNum kv.2) (fun kv => jIntVal kv.2)
      (histOfInts pairs)
      (by
        intro a ha
        obtain ⟨p, _, rfl⟩ := List.mem_map.mp ha
        rfl)
    rw [h1, histOfInts, List.map_map]
    rfl
  have hC : (histOfInts pairs).mapM
      (fun kv => do
        let v ← histKeyVal (histOfInts pairs) kv.1
        pure (kv.1, v)) = .ok pairs := by
    have h1 := mapM_ok_of_forall
      (fun kv => do
        let v ← histKeyVal (histOfInts pairs) kv.1
        pure (kv.1, v))
      (fun kv => (kv.1, jIntVal kv.2))
      (histOfInts pairs)
      (by
        intro a ha
        obtain ⟨p, hp, rfl⟩ := List.mem_map.mp ha
        show (histKeyVal (histOfInts pairs) p.1 >>= fun v => pure (p.1, v)) = _
        rw [histKeyVal_histOfInts pairs p.1 p.2 hnd hp]
        rfl)
    rw [h1, histOfInts, List.map_map]
    have h2 : (pairs.map ((fun kv => (kv.1, jIntVal kv.2)) ∘ fun p => (p.1, JVal.int p.2))) = pairs.map id := by
      exact List.map_congr_left (fun p _ => rfl)
    rw [h2, List.map_id]
  have htopkv : histKeyVal (histOfInts pairs) top.1 = .ok top.2 :=
    histKeyVal_histOfInts pairs top.1 top.2 hnd hmem
  refine ⟨?_, by rw [hfmb]; rfl⟩
  rw [extract_top_bucket]
  simp only [hempty, Bool.false_eq_true, if_false]
  rw [hB, exbind_ok]
  try simp only []
  rw [if_neg (by simpa [sumSnd] using hs)]
  rw [hC, exbind_ok]
  try simp only []
  rw [hmax]
  try simp only []
  rw [htopkv, exbind_ok]
  rw [hfmb, htop2]
  rfl

theorem dictInsert_fresh {β : Type} (acc : List (String × β)) (k : String) (v : β)
    (h : ∀ kv ∈ acc, kv.1 ≠ k) : dictInsert acc k v = acc ++ [(k, v)] := by
  rw [dictInsert, if_neg]
  intro hc
  obtain ⟨kv, hkv, hbeq⟩ := List.any_eq_true.mp hc
  exact h kv hkv (by simpa using hbeq)

theorem histogram_fold_fresh : ∀ (pairs : List (String × Int)) (acc : List (String × JVal)),
    (pairs.map Prod.fst).Nodup →
    (∀ p ∈ pairs, ∀ kv ∈ acc, kv.1 ≠ p.1) →
    (pairs.map (fun p => JVal.arr [.str p.1, .int p.2])).foldl
      (fun acc item =>
        match item with
        | .arr (a :: b :: _) => dictInsert acc (pyStr a) b
        | _ => acc) acc = acc ++ histOfInts pairs := by
  intro pairs
  induction pairs with
  | nil =>
      intro acc _ _
      simp [histOfInts]
  | cons p ps ih =>
      intro acc hnd hfresh
      rw [List.map_cons, List.nodup_cons] at hnd
      have hstep : (fun (acc : List (String × JVal)) (item : JVal) =>
          match item with
          | .arr (a :: b :: _) => dictInsert acc (pyStr a) b
          | _ => acc) acc (JVal.arr [.str p.1, .int p.2]) = acc ++ [(p.1, JVal.int p.2)] := by
        show dictInsert acc (pyStr (.str p.1)) (.int p.2) = acc ++ [(p.1, JVal.int p.2)]
        exact dictInsert_fresh acc p.1 (.int p.2)
          (fun kv hkv => hfresh p (List.mem_cons_self p ps) kv hkv)
      have hfresh2 : ∀ q ∈ ps, ∀ kv ∈ acc ++ [(p.1, JVal.int p.2)], kv.1 ≠ q.1 := by
        intro q hq kv hkv
        rcases List.mem_append.mp hkv with hin | hone
        · exact hfresh q (List.mem_cons_of_mem p hq) kv hin
        · have he : kv = (p.1, JVal.int p.2) := List.mem_singleton.mp hone
          rw [he]
          intro hcontra
          exact hnd.1 (hcontra ▸ List.mem_map_of_mem Prod.fst hq)
      have h1 : List.foldl
          (fun acc item =>
            match item with
            | JVal.arr (a :: b :: _) => dictInsert acc (pyStr a) b
            | _ => acc) acc ((p :: ps).map (fun p => JVal.arr [.str p.1, .int p.2])) =
          List.foldl
            (fun acc item =>
              match item with
              | JVal.arr (a :: b :: _) => dictInsert acc (pyStr a) b
              | _ => acc) (acc ++ [(p.1, JVal.int p.2)])
            (ps.map (fun p => JVal.arr [.str p.1, .int p.2])) := by
        rw [List.map_cons, List.foldl_cons]
        exact congrArg
          (fun s => List.foldl
            (fun acc item =>
              match item with
              | JVal.arr (a :: b :: _) => dictInsert acc (pyStr a) b
              | _ => acc) s (ps.map (fun p => JVal.arr [.str p.1, .int p.2]))) hstep
      rw [h1, ih (acc ++ [(p.1, JVal.int p.2)]) hnd.2 hfresh2, List.append_assoc]
      rfl

theorem histogram_from_pairs_distinct (pairs : List (String × Int))
    (hnd : (pairs.map Prod.fst).Nodup) :
    histogram_from_pairs (.arr (pairs.map (fun p => JVal.arr [.str p.1, .int p.2]))) =
      histOfInts pairs := by
  have h := histogram_fold_fresh pairs [] hnd
    (fun p _ kv hkv => absurd hkv (List.not_mem_nil kv))
  exact h.trans (List.nil_append _)

/-! ### Decoder lemmas -/

theorem length_strmk (l : List Char) : (String.mk l).length = l.length := rfl

theorem except_bind_eq_ok {α β : Type} {x : Except PErr α} {f : α → Except PErr β} {b : β}
    (h : (x >>= f) = .ok b) : ∃ a, x = .ok a ∧ f a = .ok b := by
  cases x with
  | ok a => exact ⟨a, rfl, h⟩
  | error e => exact absurd h (by intro hc; cases hc)

theorem sanitize_frame_length (s : String) :
    (sanitize_frame s).length ≤ MAX_FRAME_LENGTH + 3 := by
  unfold sanitize_frame
  split
  case isTrue h =>
      rw [length_strmk, List.length_append, List.length_take]
      have : "...".data.length = 3 := rfl
      omega
  case isFalse h =>
      rw [length_strmk]
      omega

theorem decodeRest_ok_callstack {jl : String → Option JVal} {days : Int} {mf : Nat} {lb : ℚ}
    {proj fp : String} {folds : List JVal} {count : Int} {g : Crasher}
    (h : decodeRest jl days mf lb proj fp folds count = .ok g) :
    ∃ fs : List String, g.callstack = (fs.map sanitize_frame).take mf := by
  unfold decodeRest at h
  obtain ⟨pb, hpb, h⟩ := except_bind_eq_ok h
  obtain ⟨vb, hvb, h⟩ := except_bind_eq_ok h
  obtain ⟨isn, hisn, h⟩ := except_bind_eq_ok h
  obtain ⟨u, hu, h⟩ := except_bind_eq_ok h
  cases h
  exact ⟨_, rfl⟩

theorem parseEntries_callstack (jl : String → Option JVal) (days : Int) (mf : Nat)
    (mc : Int) (lb : ℚ) (proj : String) :
    ∀ (l : List JVal) (out : List Crasher),
      parseEntries jl days mf mc lb proj l = .ok out →
      ∀ g ∈ out, ∃ fs : List String, g.callstack = (fs.map sanitize_frame).take mf := by
  intro l
  induction l with
  | nil =>
      intro out h g hg
      cases h
      exact absurd hg (List.not_mem_nil g)
  | cons entry rest ih =>
      intro out h g hg
      rcases entry with _ | b | n | s | es | kvs <;> simp only [parseEntries] at h <;>
        try exact ih out h g hg
      split at h
      all_goals try exact ih out h g hg
      split at h
      all_goals try exact ih out h g hg
      split at h
      all_goals try exact ih out h g hg
      obtain ⟨count, hc, h⟩ := except_bind_eq_ok h
      split at h
      all_goals try exact ih out h g hg
      obtain ⟨g0, hg0, h⟩ := except_bind_eq_ok h
      obtain ⟨gs, hgs, h⟩ := except_bind_eq_ok h
      cases h
      rcases List.mem_cons.mp hg with rfl | hmem
      · exact decodeRest_ok_callstack hg0
      · exact ih gs hgs g hmem

theorem parse_response_ok_shape {jl : String → Option JVal} {resp : JVal} {days : Int}
    {mf : Nat} {mc : Int} {lb : ℚ} {proj : String} {out : List Crasher}
    (h : parse_response jl resp days mf mc lb proj = .ok out) :
    out = [] ∨ ∃ l : List JVal, parseEntries jl days mf mc lb proj l = .ok out := by
  unfold parse_response at h
  split at h
  · split at h
    · simp only [] at h
      split at h
      · cases h
        exact Or.inl rfl
      · split at h
        · exact Or.inr ⟨_, h⟩
        · cases h
          exact Or.inl rfl
        · cases h
          exact Or.inl rfl
        · exact absurd h (by intro hc; cases hc)
    · exact absurd h (by intro hc; cases hc)
  · exact absurd h (by intro hc; cases hc)

theorem compare_windows_length (r b : List Crasher) :
    (compare_windows r b).length = r.length := by
  unfold compare_windows
  rw [length_assignRanks, length_pySort, List.length_map]

theorem compare_windows_fp_perm (r b : List Crasher) :
    ((compare_windows r b).map (fun c => c.fingerprint)).Perm
      (r.map (fun c => c.fingerprint)) := by
  have h := (cmpView_compare_windows r b).map Prod.fst
  rw [List.map_map, List.map_map] at h
  have e2 : r.map (Prod.fst ∘ fun c => cmpView (annotateOne (baselineDict b) c)) =
      r.map (fun c => c.fingerprint) :=
    List.map_congr_left (fun c _ => (annotateOne_fields (baselineDict b) c).1)
  rw [e2] at h
  exact h

theorem compare_windows_ranks (r b : List Crasher) :
    (compare_windows r b).map (fun c => c.rank) = (List.range' 1 r.length).map some := by
  unfold compare_windows
  rw [map_rank_assignRanks, length_pySort, List.length_map]

theorem sort_crashers_ranks (cs : List Crasher) (order : String) :
    (sort_crashers cs order).map (fun c => c.rank) = (List.range' 1 cs.length).map some := by
  simp only [sort_crashers]
  rw [map_rank_assignRanks]
  have hlen : (if order = "last-seen" then
      pySort (fun a b => decide (tsKey b.last_seen_ts ≤ tsKey a.last_seen_ts)) cs
    else if order = "rate" then
      pySort (fun a b => decide (b.crashes_per_day ≤ a.crashes_per_day)) cs
    else
      pySort (fun a b => decide (b.count ≤ a.count)) cs).length = cs.length := by
    split
    · exact length_pySort _ _
    · split
      · exact length_pySort _ _
      · exact length_pySort _ _
  rw [hlen]

/-! ### Concrete fixtures used by witnesses and counterexamples -/

/-- A `json.loads` stand-in that always fails to parse (every claim below
that quantifies over the JSON parser is instantiated with it). -/
def jlNone : String → Option JVal := fun _ => none

/-- A minimal decoded crash group used as input to the analyzer fixtures. -/
def cEx : Crasher := {
  fingerprint := "f", count := 3, crashes_per_day := 0, classifier := "c",
  top_frame := "t", signature := "s", callstack := [], platforms := [],
  top_platform := none, platform_pct := 0, versions := [], top_version := none,
  version_pct := 0, first_seen_ts := none, last_seen_ts := none, is_new := false,
  triage_url := "", suggested_title := "", labels := [] }

/-- A top-level response wrapping the given `values` list. -/
def respOf (vals : List JVal) : JVal :=
  .obj [("response", .obj [("values", .arr vals)])]

/-- The list under an `Except.ok`, `[]` on an error. -/
def okList (e : Except PErr (List Crasher)) : List Crasher :=
  match e with
  | .ok l => l
  | .error _ => []

/-! ### Claim C1 -/

/-- C1 (corrected): a top-level response object that lacks the expected
container (no `"response"` object, or a `"response"` object with no
`"values"` entry) makes `parse_response` return an empty list — it does not
raise — and `main` then exits 3 (zero results), not 2. -/
theorem claim_C1 (jl : String → Option JVal) (days : Int) (mf : Nat) (mc : Int)
    (lb : ℚ) (proj : String) (kvs : List (String × JVal))
    (h : pyGet kvs "response" = none ∨
      ∃ kvs2, pyGet kvs "response" = some (.obj kvs2) ∧ pyGet kvs2 "values" = none) :
    parse_response jl (.obj kvs) days mf mc lb proj = .ok [] ∧
      resultExitCode [] = 3 := by
  refine ⟨?_, rfl⟩
  rcases h with h1 | ⟨kvs2, h1, h2⟩
  · unfold parse_response
    dsimp only
    rw [h1]
    rfl
  · unfold parse_response
    dsimp only
    rw [h1]
    simp only [Option.getD_some]
    rw [h2]
    rfl

/-- C1 witness: the containerless response `{}`. -/
theorem claim_C1_witness :
    parse_response jlNone (.obj []) 7 8 10 0 "p" = .ok [] ∧ resultExitCode [] = 3 :=
  claim_C1 jlNone 7 8 10 0 "p" [] (Or.inl rfl)

/-- C1 counterexample: on the containerless response `{}` the decoder
returns a normal (empty) result instead of raising a Malformed Response
error, and the process exit code is 3, not 2. -/
theorem claim_C1_counterexample :
    parse_response jlNone (.obj []) 7 8 10 0 "p" = .ok [] ∧
      resultExitCode [] = 3 ∧ resultExitCode [] ≠ 2 :=
  ⟨rfl, rfl, by decide⟩

/-! ### Claim C8 -/

theorem parseEntries_cons_congr (jl : String → Option JVal) (days : Int) (mf : Nat)
    (mc : Int) (lb : ℚ) (proj : String) (a : JVal) {r1 r2 : List JVal}
    (h : parseEntries jl days mf mc lb proj r1 = parseEntries jl days mf mc lb proj r2) :
    parseEntries jl days mf mc lb proj (a :: r1) = parseEntries jl days mf mc lb proj (a :: r2) := by
  rcases a with _ | b | n | s | es | kvs <;> simp only [parseEntries] <;> try exact h
  rw [h]

theorem parseEntries_skip_short (jl : String → Option JVal) (days : Int) (mf : Nat)
    (mc : Int) (lb : ℚ) (proj : String) (fpv : JVal) (folds : List JVal)
    (hshort : folds.length < 6) :
    ∀ l1 l2 : List JVal,
      parseEntries jl days mf mc lb proj (l1 ++ .arr [fpv, .arr folds] :: l2) =
        parseEntries jl days mf mc lb proj (l1 ++ l2) := by
  intro l1
  induction l1 with
  | nil =>
      intro l2
      simp only [List.nil_append, parseEntries, List.getD_cons_succ, List.getD_cons_zero]
      rw [if_pos hshort]
      exact ite_self _
  | cons a l1 ih =>
      intro l2
      rw [List.cons_append, List.cons_append]
      exact parseEntries_cons_congr jl days mf mc lb proj a (ih l2)

theorem parse_response_respOf (jl : String → Option JVal) (days : Int) (mf : Nat)
    (mc : Int) (lb : ℚ) (proj : String) (vals : List JVal) :
    parse_response jl (respOf vals) days mf mc lb proj =
      if vals.isEmpty then .ok [] else parseEntries jl days mf mc lb proj vals := by
  cases vals <;> rfl

/-- C8 (confirmed): an entry whose fold-result list has fewer than the six
required folds is skipped silently: decoding the response with the entry
present gives exactly the same (error-free) result as decoding it with the
entry removed, so the remaining entries are still decoded and no error is
raised. -/
theorem claim_C8 (jl : String → Option JVal) (days : Int) (mf : Nat) (mc : Int)
    (lb : ℚ) (proj : String) (pre post : List JVal) (fpv : JVal) (folds : List JVal)
    (hshort : folds.length < 6) :
    parse_response jl (respOf (pre ++ .arr [fpv, .arr folds] :: post)) days mf mc lb proj =
      parse_response jl (respOf (pre ++ post)) days mf mc lb proj := by
  rw [parse_response_respOf, parse_response_respOf]
  have hne : (pre ++ JVal.arr [fpv, .arr folds] :: post).isEmpty = false := by
    cases pre <;> rfl
  rw [hne]
  simp only [Bool.false_eq_true, if_false]
  rw [parseEntries_skip_short jl days mf mc lb proj fpv folds hshort pre post]
  cases hpp : (pre ++ post).isEmpty
  · simp only [Bool.false_eq_true, if_false]
  · have : pre ++ post = [] := List.isEmpty_iff.mp hpp
    rw [this]
    rfl

/-- C8 witness: a response holding one five-fold entry and one full entry;
the short entry is dropped and the rest is decoded. -/
theorem claim_C8_witness :
    parse_response jlNone
        (respOf [.arr [.str "bad", .arr [.arr [.int 9], .arr [.int 9], .arr [.int 9], .arr [.int 9], .arr [.int 9]]],
                 .arr [.str "good", .arr [.arr [.int 50], .arr [.str "fr"], .arr [.str "cl"], .arr [.int 1, .int 2], .arr [], .arr []]]])
        7 8 0 0 "p" =
      parse_response jlNone
        (respOf [.arr [.str "good", .arr [.arr [.int 50], .arr [.str "fr"], .arr [.str "cl"], .arr [.int 1, .int 2], .arr [], .arr []]]])
        7 8 0 0 "p" :=
  claim_C8 jlNone 7 8 0 0 "p" []
    [.arr [.str "good", .arr [.arr [.int 50], .arr [.str "fr"], .arr [.str "cl"], .arr [.int 1, .int 2], .arr [], .arr []]]]
    (.str "bad") [.arr [.int 9], .arr [.int 9], .arr [.int 9], .arr [.int 9], .arr [.int 9]]
    (by decide)

/-! ### Claim C6 -/

/-- C6 (confirmed): every final crash-group sequence carries the contiguous
rank sequence `1..N` — after `sort_crashers` in single-window mode (any sort
order), and after `compare_windows` plus truncation to the limit in
comparison mode — and all four output formatters report each group's `rank`
(and `fingerprint`, `count`) unchanged from the ranked sequence, hence
identically across formats. -/
theorem claim_C6 :
    (∀ (cs : List Crasher) (order : String),
      (sort_crashers cs order).map (fun c => c.rank) = (List.range' 1 cs.length).map some) ∧
    (∀ (r b : List Crasher) (limit : Nat),
      ((compare_windows r b).take limit).map (fun c => c.rank) =
        (List.range' 1 (min limit r.length)).map some) ∧
    (∀ (cs : List Crasher) (cm : Bool),
      (format_json_entries cs cm).map (fun e => (e.rank, e.fingerprint, e.count)) =
          cs.map (fun c => (c.rank, c.fingerprint, c.count)) ∧
      (format_ndjson_entries cs cm).map (fun e => (e.rank, e.fingerprint, e.count)) =
          cs.map (fun c => (c.rank, c.fingerprint, c.count)) ∧
      (format_csv_rows cs cm).map (fun e => (e.rank, e.fingerprint, e.count)) =
          cs.map (fun c => (c.rank, c.fingerprint, c.count)) ∧
      (format_markdown_sections cs cm).map (fun e => (e.rank, e.fingerprint, e.count)) =
          cs.map (fun c => (c.rank, c.fingerprint, c.count))) := by
  refine ⟨sort_crashers_ranks, ?_, ?_⟩
  · intro r b limit
    rw [List.map_take, compare_windows_ranks, ← List.map_take, take_range']
  · intro cs cm
    refine ⟨?_, ?_, ?_, ?_⟩
    · rw [format_json_entries, List.map_map]
      rfl
    · rw [format_ndjson_entries, List.map_map]
      rfl
    · rw [format_csv_rows, List.map_map]
      rfl
    · rw [format_markdown_sections, List.map_map]
      rfl

/-! ### Claim C7 -/

/-- C7 (confirmed): the analyzer's output is recent-anchored: it has exactly
one annotated record per recent group (same length, and the output
fingerprints are a permutation of the recent fingerprints), so a fingerprint
present only in the baseline never appears in the output. -/
theorem claim_C7 (r b : List Crasher) :
    (compare_windows r b).length = r.length ∧
    ((compare_windows r b).map (fun c => c.fingerprint)).Perm
      (r.map (fun c => c.fingerprint)) ∧
    (∀ fp, fp ∈ (compare_windows r b).map (fun c => c.fingerprint) →
      fp ∈ r.map (fun c => c.fingerprint)) :=
  ⟨compare_windows_length r b, compare_windows_fp_perm r b,
    fun fp hfp => (compare_windows_fp_perm r b).mem_iff.mp hfp⟩

/-- C7 witness: a singleton recent window against an empty baseline. -/
theorem claim_C7_witness :
    ("f" ∈ [cEx].map (fun c => c.fingerprint)) ∧
    "f" ∈ (compare_windows [cEx] []).map (fun c => c.fingerprint) :=
  ⟨List.Mem.head _, (claim_C7 [cEx] []).2.2 "f" (List.Mem.head _)⟩

/-! ### Claim C3 -/

/-- C3 (corrected): the badge is a pure function of baseline membership and
the exact (unrounded) change ratio, not of the stored `change_factor` field
alone — NEW (absent) and RISING (present with a zero baseline count) both
store the infinity sentinel. -/
theorem claim_C3_amended (r b : List Crasher) (c : Crasher)
    (h : c ∈ compare_windows r b) :
    c.regression_badge = some (badgeFromMembership
      (isFoundInBaseline b c.fingerprint) (cfExact b c.fingerprint c.count)) := by
  obtain ⟨c1, hc1, hview⟩ := mem_compare_windows_view h
  have hbadge := annotateOne_badge_eq b c1
  have hfp : c.fingerprint = (annotateOne (baselineDict b) c1).fingerprint :=
    congrArg Prod.fst hview
  have hcnt : c.count = (annotateOne (baselineDict b) c1).count :=
    congrArg (fun p => p.2.1) hview
  have hbdg : c.regression_badge = (annotateOne (baselineDict b) c1).regression_badge :=
    congrArg (fun p => p.2.2.1) hview
  obtain ⟨hfp1, hcnt1⟩ := annotateOne_fields (baselineDict b) c1
  rw [hfp, hcnt, hfp1, hcnt1, hbdg, hbadge]

/-- C3 counterexample: two analyzer outputs with the same stored
`change_factor` (the infinity sentinel) but different badges — one absent
from the baseline (NEW), one present with baseline count 0 (RISING). -/
theorem claim_C3_counterexample :
    (compare_windows [{cEx with fingerprint := "a", count := 5},
                      {cEx with fingerprint := "b", count := 5}]
        [{cEx with fingerprint := "b", count := 0}]).map
      (fun c => (c.change_factor, c.regression_badge)) =
      [(some .inf, some .NEW), (some .inf, some .RISING)] ∧
    (some CF.inf : Option CF) = some CF.inf ∧
    (some Badge.NEW : Option Badge) ≠ some Badge.RISING :=
  ⟨rfl, rfl, by decide⟩

/-- C3 witness: the amended purity statement applied at a singleton recent
window and an empty baseline. -/
theorem claim_C3_witness :
    ((compare_windows [cEx] []).headD cEx).regression_badge =
      some (badgeFromMembership
        (isFoundInBaseline [] ((compare_windows [cEx] []).headD cEx).fingerprint)
        (cfExact [] ((compare_windows [cEx] []).headD cEx).fingerprint
          ((compare_windows [cEx] []).headD cEx).count)) :=
  claim_C3_amended [cEx] [] ((compare_windows [cEx] []).headD cEx) (List.Mem.head _)

/-! ### Claim C4 -/

/-- C4 (corrected): the analyzer's per-record contract.  Absent fingerprint:
badge NEW, `baseline_count = 0`, `change_factor` = infinity sentinel.
Present with baseline count > 0: the badge is classified from the exact
quotient (RISING iff > 2.0, FALLING iff < 0.5, otherwise STABLE, with the
boundaries 2.0 and 0.5 both STABLE), and the stored `change_factor` is that
quotient rounded to one decimal.  Present with baseline count not > 0:
`change_factor` = infinity sentinel and badge RISING. -/
theorem claim_C4_amended (r b : List Crasher) (c : Crasher)
    (h : c ∈ compare_windows r b) : C4Spec b c := by
  obtain ⟨c1, hc1, hview⟩ := mem_compare_windows_view h
  have hfp : c.fingerprint = (annotateOne (baselineDict b) c1).fingerprint :=
    congrArg Prod.fst hview
  have hcnt : c.count = (annotateOne (baselineDict b) c1).count :=
    congrArg (fun p => p.2.1) hview
  have hbdg : c.regression_badge = (annotateOne (baselineDict b) c1).regression_badge :=
    congrArg (fun p => p.2.2.1) hview
  have hcf : c.change_factor = (annotateOne (baselineDict b) c1).change_factor :=
    congrArg (fun p => p.2.2.2.1) hview
  have hbc : c.baseline_count = (annotateOne (baselineDict b) c1).baseline_count :=
    congrArg (fun p => p.2.2.2.2) hview
  obtain ⟨hfp1, hcnt1⟩ := annotateOne_fields (baselineDict b) c1
  have hspec := annotateOne_C4Spec b c1
  unfold C4Spec at hspec ⊢
  rw [hfp, hcnt, hfp1, hcnt1, hbdg, hcf, hbc]
  rw [hfp1, hcnt1] at hspec
  exact hspec

/-- C4 counterexample: recent count 1 against baseline count 3 stores
`change_factor = 0.3` (the quotient rounded to one decimal), which differs
from the exact quotient 1/3 the claim asserts. -/
theorem claim_C4_counterexample :
    (compare_windows [{cEx with fingerprint := "a", count := 1}]
        [{cEx with fingerprint := "a", count := 3}]).map
      (fun c => (c.regression_badge, c.change_factor, c.baseline_count)) =
      [(some .FALLING, some (.q (mkRat 3 10)), some 3)] ∧
    CF.q (mkRat 3 10) ≠ CF.q (pyDiv 1 3) :=
  ⟨rfl, by decide⟩

/-- C4 witness: the contract applied at a found fingerprint with baseline
count 3 and recent count 1. -/
theorem claim_C4_witness :
    C4Spec [{cEx with fingerprint := "a", count := 3}]
      ((compare_windows [{cEx with fingerprint := "a", count := 1}]
        [{cEx with fingerprint := "a", count := 3}]).headD cEx) :=
  claim_C4_amended [{cEx with fingerprint := "a", count := 1}]
    [{cEx with fingerprint := "a", count := 3}]
    ((compare_windows [{cEx with fingerprint := "a", count := 1}]
      [{cEx with fingerprint := "a", count := 3}]).headD cEx)
    (List.Mem.head _)

/-! ### Claim C5 -/

/-- C5 (corrected): for an integer-counted histogram (a dict, so bucket
labels are distinct), the dominant-bucket share is the maximum count divided
by the total when the total is nonzero, the share is 0 when the total is 0,
and a single bucket gives share 1 (reported as 100%) only when its count is
nonzero — a lone zero-count bucket falls into the zero-total case and
reports 0, not 100. -/
theorem claim_C5_amended (pairs : List (String × Int))
    (hnd : (pairs.map Prod.fst).Nodup) :
    (sumSnd pairs ≠ 0 → ∃ k, extract_top_bucket (histOfInts pairs) =
      .ok (some k, pyDiv (maxSnd pairs) (sumSnd pairs))) ∧
    (sumSnd pairs = 0 → extract_top_bucket (histOfInts pairs) = .ok (none, 0)) ∧
    (∀ k v, pairs = [(k, v)] → v ≠ 0 →
      extract_top_bucket (histOfInts pairs) = .ok (some k, 1) ∧
        qMulInt 1 100 = (100 : ℚ)) := by
  refine ⟨?_, ?_, ?_⟩
  · intro hs
    obtain ⟨hmain, hsome⟩ := extract_top_bucket_ints pairs hnd hs
    obtain ⟨k, hk⟩ := Option.isSome_iff_exists.mp hsome
    exact ⟨k, by rw [hmain, hk]⟩
  · intro hs
    cases pairs with
    | nil => rfl
    | cons p ps =>
        rw [extract_top_bucket]
        rw [if_neg (by simp [histOfInts])]
        have hB : (histOfInts (p :: ps)).mapM (fun kv => pyNum kv.2) =
            .ok ((p :: ps).map Prod.snd) := by
          have h1 := mapM_ok_of_forall (fun kv => pyNum kv.2) (fun kv => jIntVal kv.2)
            (histOfInts (p :: ps))
            (by
              intro a ha
              obtain ⟨q, _, rfl⟩ := List.mem_map.mp ha
              rfl)
          rw [h1, histOfInts, List.map_map]
          rfl
        rw [hB, exbind_ok]
        try simp only []
        rw [if_pos (by simpa [sumSnd] using hs)]
  · intro k v hpairs hv
    subst hpairs
    refine ⟨?_, rfl⟩
    have hs : sumSnd [(k, v)] ≠ 0 := by simpa [sumSnd] using hv
    obtain ⟨hmain, _⟩ := extract_top_bucket_ints [(k, v)] (by simp) hs
    rw [hmain]
    have h1 : firstMaxPairBucket [(k, v)] = some k := by
      simp [firstMaxPairBucket, maxSnd, List.find?]
    have h2 : pyDiv (maxSnd [(k, v)]) (sumSnd [(k, v)]) = 1 := by
      show Rat.divInt (maxSnd [(k, v)]) (sumSnd [(k, v)]) = 1
      have hm : maxSnd [(k, v)] = v := rfl
      have hsum : sumSnd [(k, v)] = v := by simp [sumSnd]
      rw [hm, hsum, Rat.divInt_self' (by exact_mod_cast hv)]
    rw [h1, h2]

/-- C5 counterexample: the histogram with exactly one bucket of count 0
reports share 0, not 100. -/
theorem claim_C5_counterexample :
    extract_top_bucket [("a", JVal.int 0)] = .ok (none, 0) ∧
      qMulInt 0 100 ≠ (100 : ℚ) :=
  ⟨rfl, by decide⟩

/-- C5 witness: a single bucket of count 5 has share 1, reported as 100. -/
theorem claim_C5_witness :
    extract_top_bucket (histOfInts [("x", 5)]) = .ok (some "x", 1) ∧
      qMulInt 1 100 = (100 : ℚ) :=
  (claim_C5_amended [("x", 5)] (by decide)).2.2 "x" 5 rfl (by decide)

/-! ### Claim C9 -/

/-- C9 (corrected): for a pair list with pairwise-distinct buckets and a
nonzero total, `histogram_from_pairs` keeps the pairs in insertion order and
`extract_top_bucket` returns the bucket of the first-occurring maximal pair
(the earliest-inserted maximal bucket).  With duplicated buckets the two
notions diverge: a later pair overwrites the count but the bucket keeps its
first position, so the result need not be the bucket of the first-occurring
maximal pair. -/
theorem claim_C9_amended (pairs : List (String × Int))
    (hnd : (pairs.map Prod.fst).Nodup) :
    histogram_from_pairs (.arr (pairs.map (fun p => JVal.arr [.str p.1, .int p.2]))) =
      histOfInts pairs ∧
    (sumSnd pairs ≠ 0 →
      extract_top_bucket
          (histogram_from_pairs (.arr (pairs.map (fun p => JVal.arr [.str p.1, .int p.2])))) =
        .ok (firstMaxPairBucket pairs, pyDiv (maxSnd pairs) (sumSnd pairs))) := by
  refine ⟨histogram_from_pairs_distinct pairs hnd, ?_⟩
  intro hs
  rw [histogram_from_pairs_distinct pairs hnd]
  exact (extract_top_bucket_ints pairs hnd hs).1

/-- C9 counterexample: the duplicated-bucket pair list
`[["a",1],["b",5],["a",5]]` canonicalizes to `{a: 5, b: 5}` (bucket `a`
keeps its first position), so `extract_top_bucket` returns `a`, while the
first-occurring maximal pair is `["b",5]` — bucket `b`. -/
theorem claim_C9_counterexample :
    histogram_from_pairs
        (.arr [.arr [.str "a", .int 1], .arr [.str "b", .int 5], .arr [.str "a", .int 5]]) =
      [("a", JVal.int 5), ("b", JVal.int 5)] ∧
    extract_top_bucket [("a", JVal.int 5), ("b", JVal.int 5)] =
      .ok (some "a", pyDiv 5 10) ∧
    firstMaxPairBucket [("a", 1), ("b", 5), ("a", 5)] = some "b" ∧
    (some "a" : Option String) ≠ some "b" :=
  ⟨rfl, rfl, rfl, by decide⟩

/-- C9 witness: the tie `[["x",2],["y",2]]` (distinct buckets) resolves to
the earliest-inserted bucket `x`, which is also the first-occurring maximal
pair. -/
theorem claim_C9_witness :
    histogram_from_pairs (.arr ([("x", (2 : Int)), ("y", 2)].map
        (fun p => JVal.arr [.str p.1, .int p.2]))) = histOfInts [("x", 2), ("y", 2)] ∧
    extract_top_bucket
        (histogram_from_pairs (.arr ([("x", (2 : Int)), ("y", 2)].map
          (fun p => JVal.arr [.str p.1, .int p.2])))) =
      .ok (firstMaxPairBucket [("x", 2), ("y", 2)],
        pyDiv (maxSnd [("x", 2), ("y", 2)]) (sumSnd [("x", 2), ("y", 2)])) :=
  ⟨(claim_C9_amended [("x", 2), ("y", 2)] (by decide)).1,
    (claim_C9_amended [("x", 2), ("y", 2)] (by decide)).2 (by decide)⟩

/-! ### Claim C10 -/

/-- A recent-window response: fingerprint `f1` with count 100. -/
def respC10recent : JVal :=
  respOf [.arr [.str "f1", .arr [.arr [.int 100], .arr [.str "fr"], .arr [.str "cl"],
    .arr [.int 1, .int 2], .arr [], .arr []]]]

/-- A baseline-window response: the same fingerprint with count 1, which is
below any usual `--min-count`. -/
def respC10base : JVal :=
  respOf [.arr [.str "f1", .arr [.arr [.int 1], .arr [.str "fr"], .arr [.str "cl"],
    .arr [.int 1, .int 2], .arr [], .arr []]]]

set_option maxRecDepth 100000 in
/-- C10 (confirmed): in comparison mode the baseline window is decoded with
a literal minimum-count floor of 0, so whatever `--min-count` the caller
supplies (here: any floor that keeps the recent group), a recent group whose
baseline count is 1 still joins against that true baseline count and is
classified RISING, not NEW. -/
theorem claim_C10 (mc : Int) (h : mc ≤ 100) :
    (comparePipeline jlNone respC10recent respC10base 7 8 mc 25 0 0 "p").map
      (fun l => l.map (fun c => (c.fingerprint, c.baseline_count, c.regression_badge))) =
      .ok [("f1", some 1, some .RISING)] := by
  have hc : ¬ ((100 : Int) < mc) := by omega
  have key : parse_response jlNone respC10recent 7 8 mc 0 "p" =
      parse_response jlNone respC10recent 7 8 0 0 "p" := by
    show (if (100 : Int) < mc then Except.ok []
      else parse_response jlNone respC10recent 7 8 0 0 "p") =
      parse_response jlNone respC10recent 7 8 0 0 "p"
    exact if_neg hc
  show (comparePipeline jlNone respC10recent respC10base 7 8 mc 25 0 0 "p").map
      (fun l => l.map (fun c => (c.fingerprint, c.baseline_count, c.regression_badge))) =
      .ok [("f1", some 1, some .RISING)]
  unfold comparePipeline
  rw [key]
  rfl

/-- C10 witness: the default `--min-count 10`. -/
theorem claim_C10_witness :
    (comparePipeline jlNone respC10recent respC10base 7 8 10 25 0 0 "p").map
      (fun l => l.map (fun c => (c.fingerprint, c.baseline_count, c.regression_badge))) =
      .ok [("f1", some 1, some .RISING)] :=
  claim_C10 10 (by decide)

/-! ### Claim C2 -/

/-- A 201-character frame (no path patterns), longer than
`MAX_FRAME_LENGTH`. -/
def longFrame : String := String.mk (List.replicate 201 'a')

/-- A response whose single entry carries `longFrame` as its callstack. -/
def respC2 : JVal :=
  respOf [.arr [.str "f1", .arr [.arr [.int 100], .arr [.str longFrame], .arr [.str "cl"],
    .arr [.int 1, .int 2], .arr [], .arr []]]]

/-- C2 (corrected): a sanitized frame is at most `MAX_FRAME_LENGTH + 3`
characters — the truncation to `MAX_FRAME_LENGTH` appends a three-character
`"..."` marker after the cut, so the configured maximum itself can be
exceeded by exactly the marker.  Redaction replaces user/home path segments
by the fixed `"<path>"` token, over-long frames are truncated with the
trailing marker, and every decoded crash group's callstack is capped at the
caller-supplied frame count, each frame obeying the same length bound. -/
theorem claim_C2_amended :
    (∀ f : String, (sanitize_frame f).length ≤ MAX_FRAME_LENGTH + 3) ∧
    (∀ f : String, MAX_FRAME_LENGTH < (piiSubAll f.data).length →
      sanitize_frame f = String.mk ((piiSubAll f.data).take MAX_FRAME_LENGTH ++ "...".data)) ∧
    piiSubAll "/Users/alice/crash.log".data = "<path>/crash.log".data ∧
    (∀ (jl : String → Option JVal) (resp : JVal) (days : Int) (mf : Nat) (mc : Int)
      (lb : ℚ) (proj : String) (out : List Crasher),
      parse_response jl resp days mf mc lb proj = .ok out →
      ∀ g ∈ out, g.callstack.length ≤ mf ∧
        ∀ fr ∈ g.callstack, fr.length ≤ MAX_FRAME_LENGTH + 3) := by
  refine ⟨sanitize_frame_length, ?_, rfl, ?_⟩
  · intro f h
    unfold sanitize_frame
    rw [if_pos h]
  · intro jl resp days mf mc lb proj out h g hg
    rcases parse_response_ok_shape h with rfl | ⟨l, hl⟩
    · exact absurd hg (List.not_mem_nil g)
    · obtain ⟨fs, hcs⟩ := parseEntries_callstack jl days mf mc lb proj l out hl g hg
      constructor
      · rw [hcs, List.length_take]
        exact min_le_left _ _
      · intro fr hfr
        rw [hcs] at hfr
        obtain ⟨f0, _, rfl⟩ := List.mem_map.mp (List.take_subset _ _ hfr)
        exact sanitize_frame_length f0

set_option maxRecDepth 100000 in
/-- C2 counterexample: the decoder, fed a 201-character frame with no path
patterns, emits a sanitized frame of 203 characters — above
`MAX_FRAME_LENGTH = 200`. -/
theorem claim_C2_counterexample :
    (parse_response jlNone respC2 7 8 0 0 "p").map
      (fun l => l.map (fun g => g.callstack.map String.length)) = .ok [[203]] ∧
    ¬ (203 ≤ MAX_FRAME_LENGTH) :=
  ⟨rfl, by decide⟩

set_option maxRecDepth 100000 in
/-- C2 witness: the decoded group of `respC2` obeys the frame cap of 8, and
the 201-character frame is truncated with the trailing marker. -/
theorem claim_C2_witness :
    ((okList (parse_response jlNone respC2 7 8 0 0 "p")).headD cEx).callstack.length ≤ 8 ∧
    sanitize_frame longFrame =
      String.mk ((piiSubAll longFrame.data).take MAX_FRAME_LENGTH ++ "...".data) := by
  constructor
  · exact (claim_C2_amended.2.2.2 jlNone respC2 7 8 0 0 "p"
      (okList (parse_response jlNone respC2 7 8 0 0 "p")) rfl
      ((okList (parse_response jlNone respC2 7 8 0 0 "p")).headD cEx)
      (List.Mem.head _)).1
  · exact claim_C2_amended.2.1 longFrame (by decide)
